import Mathlib

/-!
Shallow embedding of the candidate-to-job matching engine of
src/models/improved_ai_models.py (class ImprovedTalentMatcher).

Modelling conventions:
* Python strings are lists of Unicode code points (List Nat); str.lower()
  is modelled on the ASCII letters and str.strip() on the usual whitespace
  code points, which is all the engine's fixed vocabulary uses.
* Python floats are modelled as rationals.
* Python sets of strings are Finsets (their iteration order is
  interpreter-dependent, so list renderings of sets are kept as Finsets).
* The sentence-transformer embedding model and the TF-IDF vectorizer are
  black boxes: a matcher state carries, for every candidate, the raw
  inner-product score against each job embedding and the TF-IDF cosine
  score against each job, as opaque rational-valued functions.
-/

/-- A Python string: its list of Unicode code points. -/
abbrev Str := List Nat

/-- Code points of a Lean string literal, used to transcribe the Python literals. -/
def pyS (s : String) : Str := s.data.map Char.toNat

/-- ASCII lower-casing of one code point, as Python str.lower does on ASCII. -/
def lowerChar (n : Nat) : Nat := if 65 ≤ n ∧ n ≤ 90 then n + 32 else n

/-- Python str.lower (modelled on ASCII). -/
def pyLower (s : Str) : Str := s.map lowerChar

/-- Whitespace code points stripped by Python str.strip. -/
def isSpaceChar (n : Nat) : Bool :=
  decide (n = 32 ∨ n = 9 ∨ n = 10 ∨ n = 11 ∨ n = 12 ∨ n = 13 ∨ n = 133 ∨ n = 160)

/-- Remove trailing whitespace. -/
def stripRight (s : Str) : Str := ((s.reverse).dropWhile isSpaceChar).reverse

/-- Python str.strip: remove leading and trailing whitespace. -/
def pyStrip (s : Str) : Str := stripRight (s.dropWhile isSpaceChar)

/-- The fixed synonym table of normalize_skill_name (source lines 88-104). -/
def normalizations : List (Str × Str) :=
  [ (pyS r"js", pyS r"javascript"),
    (pyS r"ts", pyS r"typescript"),
    (pyS r"k8s", pyS r"kubernetes"),
    (pyS r"tf", pyS r"tensorflow"),
    (pyS r"ml", pyS r"machine learning"),
    (pyS r"ai", pyS r"artificial intelligence"),
    (pyS r"dl", pyS r"deep learning"),
    (pyS r"cv", pyS r"computer vision"),
    (pyS r"nlp", pyS r"natural language processing"),
    (pyS r"aws ec2", pyS r"aws"),
    (pyS r"aws s3", pyS r"aws"),
    (pyS r"gcp bigquery", pyS r"gcp"),
    (pyS r"react.js", pyS r"react"),
    (pyS r"node.js", pyS r"nodejs"),
    (pyS r"vue.js", pyS r"vue") ]

/-- Python dict.get over an association list (first matching key wins). -/
def pyGet (tbl : List (Str × Str)) (k : Str) : Option Str :=
  match tbl with
  | [] => none
  | (a, b) :: rest => if a = k then some b else pyGet rest k

/-- normalize_skill_name (source lines 83-106): lower-case, strip, then
apply the synonym table, unknown tokens passing through unchanged. -/
def normalize_skill_name (skill : Str) : Str :=
  (pyGet normalizations (pyStrip (pyLower skill))).getD (pyStrip (pyLower skill))

/-! ### Skill taxonomy and skill score (source lines 27-36, 264-294) -/

/-- The skill_categories dict of the constructor (source lines 27-36), in
insertion order. -/
def skill_categories : List (Str × List Str) :=
  [ (pyS r"programming",
      [pyS r"python", pyS r"java", pyS r"javascript", pyS r"typescript", pyS r"c++",
       pyS r"c#", pyS r"go", pyS r"rust", pyS r"scala"]),
    (pyS r"cloud",
      [pyS r"aws", pyS r"gcp", pyS r"azure", pyS r"cloud", pyS r"ec2", pyS r"s3",
       pyS r"lambda", pyS r"bigquery"]),
    (pyS r"data",
      [pyS r"sql", pyS r"nosql", pyS r"mongodb", pyS r"postgresql", pyS r"mysql",
       pyS r"redis", pyS r"elasticsearch"]),
    (pyS r"ml_ai",
      [pyS r"tensorflow", pyS r"pytorch", pyS r"scikit-learn", pyS r"machine learning",
       pyS r"deep learning", pyS r"nlp", pyS r"computer vision"]),
    (pyS r"devops",
      [pyS r"docker", pyS r"kubernetes", pyS r"terraform", pyS r"jenkins", pyS r"ci/cd",
       pyS r"ansible", pyS r"prometheus"]),
    (pyS r"frontend",
      [pyS r"react", pyS r"angular", pyS r"vue", pyS r"html", pyS r"css",
       pyS r"javascript", pyS r"typescript"]),
    (pyS r"backend",
      [pyS r"microservices", pyS r"api", pyS r"rest", pyS r"graphql", pyS r"flask",
       pyS r"django", pyS r"spring"]),
    (pyS r"data_engineering",
      [pyS r"spark", pyS r"kafka", pyS r"airflow", pyS r"etl", pyS r"data pipeline",
       pyS r"hadoop"]) ]

/-- A Python set built from normalized skill strings, as in
set([self.normalize_skill_name(skill) for skill in skills]). -/
def normSet (skills : List Str) : Finset Str := (skills.map normalize_skill_name).toFinset

/-- The category-based partial-credit loop of calculate_skill_match_score
(source lines 278-285): for every taxonomy category in which both the
candidate and the job requirements have at least one skill, add
0.3 * min(|cand ∩ cat|, |req ∩ cat|) / |req ∩ cat|. -/
def categoryScore (cand jreq : Finset Str) : ℚ :=
  skill_categories.foldl
    (fun acc p =>
      let cin := cand ∩ p.2.toFinset
      let jin := jreq ∩ p.2.toFinset
      if cin.Nonempty ∧ jin.Nonempty then
        acc + (3/10 : ℚ) * (min cin.card jin.card : ℚ) / (jin.card : ℚ)
      else acc)
    0

/-- calculate_skill_match_score (source lines 264-294). -/
def calculate_skill_match_score
    (candidate_skills job_requirements job_nice_to_have : List Str) : ℚ :=
  if job_requirements = [] then 0
  else
    let cand := normSet candidate_skills
    let jreq := normSet job_requirements
    let jnice := normSet job_nice_to_have
    let required_matches := (cand ∩ jreq).card
    let nice_matches := (cand ∩ jnice).card
    let category_score := categoryScore cand jreq
    let required_score : ℚ := if jreq.Nonempty then (required_matches : ℚ) / (jreq.card : ℚ) else 0
    let nice_score : ℚ := if jnice.Nonempty then (nice_matches : ℚ) / (jnice.card : ℚ) else 0
    min (required_score * (7/10 : ℚ) + nice_score * (2/10 : ℚ) + category_score * (1/10 : ℚ)) 1

/-! ### Experience score (source lines 296-325) -/

/-- A decimal digit code point. -/
def isDigitChar (n : Nat) : Bool := decide (48 ≤ n ∧ n ≤ 57)

/-- Decimal value of a digit run, as Python int() on a digit string. -/
def strToNat (s : Str) : Nat := s.foldl (fun acc d => 10 * acc + (d - 48)) 0

/-- Maximal digit runs of a string (the accumulator holds the current run,
reversed); this is the semantics of re.findall with a digit-run pattern. -/
def digitRunsAux : Str → Str → List Str
  | [], acc => if acc = [] then [] else [acc.reverse]
  | c :: cs, acc =>
    if isDigitChar c then digitRunsAux cs (c :: acc)
    else if acc = [] then digitRunsAux cs [] else acc.reverse :: digitRunsAux cs []

/-- All integers appearing in the string, in order (re.findall digit runs,
each parsed by int()). -/
def extractInts (s : Str) : List Nat := (digitRunsAux s []).map strToNat

/-- calculate_experience_match_score (source lines 296-325). -/
def calculate_experience_match_score (candidate_years : Nat) (job_experience_req : Str) : ℚ :=
  if job_experience_req = [] then (8/10 : ℚ)
  else
    match extractInts job_experience_req with
    | [] => (8/10 : ℚ)
    | [required_years] =>
      if required_years ≤ candidate_years then 1
      else if (required_years : ℚ) * (8/10 : ℚ) ≤ (candidate_years : ℚ) then (8/10 : ℚ)
      else max (3/10 : ℚ) ((candidate_years : ℚ) / (required_years : ℚ))
    | min_years :: max_years :: _ =>
      if min_years ≤ candidate_years ∧ candidate_years ≤ max_years then 1
      else if (min_years : ℚ) * (8/10 : ℚ) ≤ (candidate_years : ℚ) then (9/10 : ℚ)
      else if (candidate_years : ℚ) ≤ (max_years : ℚ) * (12/10 : ℚ) then (8/10 : ℚ)
      else max (3/10 : ℚ) (min ((candidate_years : ℚ) / (min_years : ℚ))
                        ((max_years : ℚ) / (candidate_years : ℚ)))

/-! ### Confidence classifier (source lines 422-429) -/

/-- get_confidence_band (source lines 422-429). -/
def get_confidence_band (score : ℚ) : Str :=
  if (8/10 : ℚ) ≤ score then pyS r"AUTO"
  else if (6/10 : ℚ) ≤ score then pyS r"REVIEW"
  else pyS r"HUMAN"

/-- Confidence order on bands: AUTO above REVIEW above HUMAN. -/
def bandRank (band : Str) : Nat :=
  if band = pyS r"AUTO" then 2 else if band = pyS r"REVIEW" then 1 else 0

/-! ### Data model -/

/-- A job record, with the fields the engine reads. -/
structure Job where
  job_id : Str
  title : Str
  department : Str
  summary : Str
  requirements : List Str
  nice_to_have : List Str
  experience_years : Str
deriving DecidableEq, Inhabited

/-- A candidate profile as passed to the engine. -/
structure Candidate where
  name : Str
  skills : List Str
  experience_years : Nat
  resume_text : Str
deriving DecidableEq, Inhabited

/-- The score_breakdown dict attached to every match (source lines 404-410). -/
structure ScoreBreakdown where
  semantic_score : ℚ
  skill_score : ℚ
  experience_score : ℚ
  tfidf_score : ℚ
  final_score : ℚ
deriving DecidableEq, Inhabited

/-- The content of generate_enhanced_explanation (source lines 431-474).
The Python function renders these parts as one pipe-joined string whose
fragment order inside each skill set is interpreter-dependent (set
iteration); the embedding keeps the structured content of each clause. -/
structure MatchExplanation where
  matching_required : Finset Str
  matching_nice : Finset Str
  missing_required : Finset Str
  experience_remark : Option Str
  verdict : Str
deriving DecidableEq, Inhabited

/-- generate_enhanced_explanation (source lines 431-474). -/
def generate_enhanced_explanation (candidate_data : Candidate) (job : Job)
    (final_score skill_score experience_score : ℚ) : MatchExplanation :=
  let candidate_skills := normSet candidate_data.skills
  let job_requirements := normSet job.requirements
  let job_nice_to_have := normSet job.nice_to_have
  { matching_required := candidate_skills ∩ job_requirements
    matching_nice := candidate_skills ∩ job_nice_to_have
    missing_required := job_requirements \ candidate_skills
    experience_remark :=
      if 0 < candidate_data.experience_years then
        some (if (9/10 : ℚ) ≤ experience_score then pyS r"excellent fit"
              else if (7/10 : ℚ) ≤ experience_score then pyS r"good fit"
              else pyS r"needs review")
      else none
    verdict :=
      if (8/10 : ℚ) ≤ final_score then pyS r"Strong match"
      else if (6/10 : ℚ) ≤ final_score then pyS r"Good potential"
      else pyS r"Requires review" }

/-- One returned match (source lines 396-411). -/
structure MatchResult where
  job_id : Str
  title : Str
  department : Str
  similarity_score : ℚ
  confidence_band : Str
  explanation : MatchExplanation
  job_details : Job
  score_breakdown : ScoreBreakdown
deriving DecidableEq, Inhabited

/-- The matcher with its loaded catalog. The sentence-transformer model and
the fitted TF-IDF vectorizer are black boxes: for a candidate, semantic
gives the raw inner product of the candidate embedding with job i's unit
embedding and tfidf gives the TF-IDF cosine against job i. -/
structure MatcherState where
  jobs_data : List Job
  semantic : Candidate → Nat → ℚ
  tfidf : Candidate → Nat → ℚ

/-- The inner products of a candidate embedding against every job embedding,
in catalog order (what the flat index holds). -/
def semScores (st : MatcherState) (c : Candidate) : List ℚ :=
  (List.range st.jobs_data.length).map (st.semantic c)

/-- Exact nearest-neighbor search of the flat inner-product index:
the k best (score, index) pairs, ordered by descending score. -/
def faissSearch (scores : List ℚ) (k : Nat) : List (ℚ × Nat) :=
  ((scores.enum.map (fun p => (p.2, p.1))).mergeSort (fun a b => decide (b.1 ≤ a.1))).take k

/-- Descending comparison on similarity_score used for the final rerank
(matches.sort(key=..., reverse=True), source line 415). -/
def mrDesc (a b : MatchResult) : Bool := decide (b.similarity_score ≤ a.similarity_score)

/-- Scoring of one shortlisted job (the loop body of match_candidate_to_jobs,
source lines 350-412): floor the raw semantic score at 0, compute the skill,
experience and TF-IDF sub-scores, fuse with weights 0.3/0.4/0.2/0.1, clamp
to [0, 1], report the percentage, the band and the explanation. -/
def scoreOne (st : MatcherState) (c : Candidate) (p : ℚ × Nat) : MatchResult :=
  let job := st.jobs_data.getD p.2 default
  let semantic_score := max 0 p.1
  let skill_score := calculate_skill_match_score c.skills job.requirements job.nice_to_have
  let experience_score := calculate_experience_match_score c.experience_years job.experience_years
  let tfidf_score := max 0 (st.tfidf c p.2)
  let final0 := semantic_score * (3/10 : ℚ) + skill_score * (4/10 : ℚ) + experience_score * (2/10 : ℚ) + tfidf_score * (1/10 : ℚ)
  let final_score := max 0 (min 1 final0)
  { job_id := job.job_id
    title := job.title
    department := job.department
    similarity_score := final_score * 100
    confidence_band := get_confidence_band final_score
    explanation := generate_enhanced_explanation c job final_score skill_score experience_score
    job_details := job
    score_breakdown :=
      { semantic_score := semantic_score
        skill_score := skill_score
        experience_score := experience_score
        tfidf_score := tfidf_score
        final_score := final_score } }

/-- match_candidate_to_jobs (source lines 327-420): an empty catalog returns
the empty list; the shortlist size is k = min(2 * top_k, number of jobs)
(a non-positive k makes the index search raise, which the surrounding
try/except turns into an empty result); every shortlisted job is scored,
the matches are sorted by similarity_score descending (Python stable sort)
and truncated to top_k. -/
def match_candidate_to_jobs (st : MatcherState) (c : Candidate) (top_k : Int) :
    List MatchResult :=
  if st.jobs_data.length = 0 then []
  else if min (2 * top_k) (st.jobs_data.length : Int) ≤ 0 then []
  else
    ((((faissSearch (semScores st c) (min (2 * top_k) (st.jobs_data.length : Int)).toNat).map
        (scoreOne st c)).mergeSort mrDesc).take top_k.toNat)

/-- The skill-gap report of analyze_skill_gaps (source lines 476-535), with
the fields derived from the candidate and job skill sets. The canned
training-resource strings attached to the first three missing required
skills are presentation only and are not modelled. -/
structure SkillGapReport where
  missing_required_skills : Finset Str
  missing_nice_to_have : Finset Str
  matching_skills : Finset Str
  readiness_score : ℚ
  skill_match_percentage : ℚ
deriving DecidableEq, Inhabited

/-- analyze_skill_gaps (source lines 476-535). -/
def analyze_skill_gaps (candidate_data : Candidate) (job : Job) : SkillGapReport :=
  let candidate_skills := normSet candidate_data.skills
  let job_requirements := normSet job.requirements
  let job_nice_to_have := normSet job.nice_to_have
  let matching := candidate_skills ∩ job_requirements
  let readiness : ℚ :=
    if job_requirements.Nonempty then (matching.card : ℚ) / (job_requirements.card : ℚ) else 0
  { missing_required_skills := job_requirements \ candidate_skills
    missing_nice_to_have := job_nice_to_have \ candidate_skills
    matching_skills := matching
    readiness_score := readiness
    skill_match_percentage := readiness * 100 }

/-! ### Concrete fixtures used by the witnesses -/

/-- A backend job fixture. -/
def exJobA : Job :=
  { job_id := pyS r"J1", title := pyS r"Backend Engineer", department := pyS r"Engineering",
    summary := pyS r"build apis", requirements := [pyS r"python", pyS r"django", pyS r"aws"],
    nice_to_have := [pyS r"docker"], experience_years := pyS r"3-6" }

/-- A data job fixture with no requirements. -/
def exJobB : Job :=
  { job_id := pyS r"J2", title := pyS r"Data Engineer", department := pyS r"Data",
    summary := pyS r"pipelines", requirements := [],
    nice_to_have := [pyS r"spark"], experience_years := pyS r"5+" }

/-- A candidate fixture. -/
def exCand : Candidate :=
  { name := pyS r"Ada", skills := [pyS r"Python", pyS r"AWS"], experience_years := 5,
    resume_text := pyS r"python aws" }

/-- A candidate with no skills and no resume text. -/
def exEmptyCand : Candidate :=
  { name := pyS r"Nemo", skills := [], experience_years := 0, resume_text := [] }

/-- A matcher fixture over the two jobs, with concrete black-box scores. -/
def exState : MatcherState :=
  { jobs_data := [exJobA, exJobB],
    semantic := fun _ i => if i = 0 then 1/2 else 1/4,
    tfidf := fun _ i => if i = 0 then 3/10 else 1/10 }

/-! ### Idempotence infrastructure for the normalizer -/

theorem lowerChar_idem (n : Nat) : lowerChar (lowerChar n) = lowerChar n := by
  unfold lowerChar
  split_ifs <;> omega

theorem isSpaceChar_lowerChar (n : Nat) : isSpaceChar (lowerChar n) = isSpaceChar n := by
  unfold lowerChar
  split_ifs with h
  · unfold isSpaceChar
    rw [decide_eq_decide]
    omega
  · rfl

theorem pyLower_idem (s : Str) : pyLower (pyLower s) = pyLower s := by
  unfold pyLower
  rw [List.map_map]
  exact List.map_congr_left fun a _ => lowerChar_idem a

theorem isSpaceChar_comp_lowerChar : (fun c => isSpaceChar (lowerChar c)) = isSpaceChar := by
  funext c
  exact isSpaceChar_lowerChar c

theorem pyLower_dropWhile (s : Str) :
    (pyLower s).dropWhile isSpaceChar = pyLower (s.dropWhile isSpaceChar) := by
  unfold pyLower
  rw [List.dropWhile_map]
  have : (isSpaceChar ∘ lowerChar) = isSpaceChar := by
    funext c
    exact isSpaceChar_lowerChar c
  rw [this]

theorem pyLower_reverse (s : Str) : pyLower s.reverse = (pyLower s).reverse := by
  unfold pyLower
  exact List.map_reverse lowerChar s

theorem pyLower_stripRight (s : Str) : pyLower (stripRight s) = stripRight (pyLower s) := by
  unfold stripRight
  rw [pyLower_reverse, ← pyLower_dropWhile, pyLower_reverse]

theorem pyLower_pyStrip (s : Str) : pyLower (pyStrip s) = pyStrip (pyLower s) := by
  unfold pyStrip
  rw [pyLower_stripRight, pyLower_dropWhile]

theorem dropWhile_dropWhile (p : Nat → Bool) (l : Str) :
    (l.dropWhile p).dropWhile p = l.dropWhile p := by
  induction l with
  | nil => rfl
  | cons a l ih =>
    by_cases h : p a
    · simp [List.dropWhile_cons, h, ih]
    · simp [List.dropWhile_cons, h]

theorem dropWhile_eq_self_of_pref (p : Nat → Bool) (xs l : Str)
    (h1 : xs <+: l) (h2 : l.dropWhile p = l) : xs.dropWhile p = xs := by
  cases xs with
  | nil => rfl
  | cons a t =>
    obtain ⟨rest, hrest⟩ := h1
    by_cases h : p a
    · exfalso
      subst hrest
      simp only [List.cons_append] at h2
      rw [List.dropWhile_cons_of_pos h] at h2
      have hlen := congrArg List.length h2
      rw [List.length_cons] at hlen
      have hsub : List.Sublist (List.dropWhile p (t ++ rest)) (t ++ rest) :=
        List.dropWhile_sublist p
      have hle := hsub.length_le
      omega
    · exact List.dropWhile_cons_of_neg h

theorem stripRight_pref (s : Str) : stripRight s <+: s := by
  unfold stripRight
  have h : s.reverse.dropWhile isSpaceChar <:+ s.reverse := List.dropWhile_suffix isSpaceChar
  have := List.reverse_prefix.mpr h
  simpa using this

theorem pyStrip_idem (s : Str) : pyStrip (pyStrip s) = pyStrip s := by
  unfold pyStrip
  set a := s.dropWhile isSpaceChar with ha
  have hleft : a.dropWhile isSpaceChar = a := dropWhile_dropWhile isSpaceChar s
  have hbleft : (stripRight a).dropWhile isSpaceChar = stripRight a :=
    dropWhile_eq_self_of_pref isSpaceChar (stripRight a) a (stripRight_pref a) hleft
  rw [hbleft]
  unfold stripRight
  rw [List.reverse_reverse, dropWhile_dropWhile]

theorem pyStrip_pyLower_fix (s : Str) :
    pyStrip (pyLower (pyStrip (pyLower s))) = pyStrip (pyLower s) := by
  rw [pyLower_pyStrip, pyLower_idem, pyStrip_idem]

theorem pyGet_mem {tbl : List (Str × Str)} {k v : Str} (h : pyGet tbl k = some v) :
    (k, v) ∈ tbl := by
  induction tbl with
  | nil => simp [pyGet] at h
  | cons p rest ih =>
    obtain ⟨a, b⟩ := p
    by_cases hk : a = k
    · simp [pyGet, hk] at h
      subst hk
      subst h
      exact List.mem_cons_self _ _
    · simp [pyGet, hk] at h
      exact List.mem_cons_of_mem _ (ih h)

theorem normalizations_values_fixed :
    ∀ p ∈ normalizations, pyStrip (pyLower p.2) = p.2 ∧ pyGet normalizations p.2 = none := by
  decide

/-- C7 core fact: the skill normalizer is idempotent. -/
theorem normalize_skill_name_idem (s : Str) :
    normalize_skill_name (normalize_skill_name s) = normalize_skill_name s := by
  cases h : pyGet normalizations (pyStrip (pyLower s)) with
  | none =>
    have h1 : normalize_skill_name s = pyStrip (pyLower s) := by
      unfold normalize_skill_name
      rw [h]
      rfl
    rw [h1]
    unfold normalize_skill_name
    rw [pyStrip_pyLower_fix, h]
    rfl
  | some v =>
    have h1 : normalize_skill_name s = v := by
      unfold normalize_skill_name
      rw [h]
      rfl
    have hv := normalizations_values_fixed (pyStrip (pyLower s), v) (pyGet_mem h)
    rw [h1]
    unfold normalize_skill_name
    rw [hv.1, hv.2]
    rfl

/-! ### Structural lemmas about the orchestrator -/

theorem semScores_length (st : MatcherState) (c : Candidate) :
    (semScores st c).length = st.jobs_data.length := by
  simp [semScores]

theorem faissSearch_length (scores : List ℚ) (k : Nat) :
    (faissSearch scores k).length = min k scores.length := by
  simp [faissSearch]

theorem scoreOne_similarity (st : MatcherState) (c : Candidate) (p : ℚ × Nat) :
    (scoreOne st c p).similarity_score = (scoreOne st c p).score_breakdown.final_score * 100 := by
  rfl

theorem scoreOne_final_clamped (st : MatcherState) (c : Candidate) (p : ℚ × Nat) :
    (scoreOne st c p).score_breakdown.final_score
      = max 0 (min 1 ((3/10 : ℚ) * (scoreOne st c p).score_breakdown.semantic_score
          + (4/10 : ℚ) * (scoreOne st c p).score_breakdown.skill_score
          + (2/10 : ℚ) * (scoreOne st c p).score_breakdown.experience_score
          + (1/10 : ℚ) * (scoreOne st c p).score_breakdown.tfidf_score)) := by
  simp only [scoreOne]
  ring_nf

theorem scoreOne_final_bounds (st : MatcherState) (c : Candidate) (p : ℚ × Nat) :
    0 ≤ (scoreOne st c p).score_breakdown.final_score
      ∧ (scoreOne st c p).score_breakdown.final_score ≤ 1 := by
  constructor
  · exact le_max_left 0 _
  · show max 0 (min 1 _) ≤ 1
    apply max_le
    · norm_num
    · exact min_le_left 1 _

theorem mem_match_eq_scoreOne {st : MatcherState} {c : Candidate} {top_k : Int}
    {r : MatchResult} (h : r ∈ match_candidate_to_jobs st c top_k) :
    ∃ p, r = scoreOne st c p := by
  unfold match_candidate_to_jobs at h
  split at h
  · exact absurd h (List.not_mem_nil r)
  · split at h
    · exact absurd h (List.not_mem_nil r)
    · have h1 := List.mem_of_mem_take h
      rw [List.mem_mergeSort] at h1
      obtain ⟨p, _, hp⟩ := List.mem_map.mp h1
      exact ⟨p, hp.symm⟩

theorem match_sorted (st : MatcherState) (c : Candidate) (top_k : Int) :
    (match_candidate_to_jobs st c top_k).Pairwise
      (fun a b => b.similarity_score ≤ a.similarity_score) := by
  unfold match_candidate_to_jobs
  split
  · exact List.Pairwise.nil
  · split
    · exact List.Pairwise.nil
    · apply List.Pairwise.sublist (List.take_sublist _ _)
      have hs := @List.sorted_mergeSort _ mrDesc
        (fun a b c hab hbc => by
          simp only [mrDesc, decide_eq_true_eq] at *
          exact le_trans hbc hab)
        (fun a b => by
          simp only [mrDesc]
          rcases le_total b.similarity_score a.similarity_score with h | h <;> simp [h])
        ((faissSearch (semScores st c) (min (2 * top_k) (st.jobs_data.length : Int)).toNat).map
          (scoreOne st c))
      exact hs.imp (fun hab => by simpa [mrDesc] using hab)

theorem match_length (st : MatcherState) (c : Candidate) (top_k : Int) :
    (match_candidate_to_jobs st c top_k).length = min top_k.toNat st.jobs_data.length := by
  unfold match_candidate_to_jobs
  split
  · rename_i h
    rw [h]
    simp
  · split
    · rename_i h hk
      have h1 : st.jobs_data.length ≠ 0 := h
      simp only [List.length_nil]
      omega
    · rename_i h hk
      rw [List.length_take, List.length_mergeSort, List.length_map, faissSearch_length,
        semScores_length]
      omega

/-! ### C1 -/

/-- C1: for every candidate and every job returned by match_candidate_to_jobs,
the fused score equals 0.3*semantic + 0.4*skill + 0.2*experience + 0.1*lexical
clamped to [0, 1], the reported similarity_score is that value times 100, and
0 ≤ similarity_score ≤ 100 always (never negative). -/
theorem C1_fused_score_clamped_percentage (st : MatcherState) (c : Candidate) (top_k : Int)
    (r : MatchResult) (h : r ∈ match_candidate_to_jobs st c top_k) :
    r.score_breakdown.final_score
        = max 0 (min 1 ((3/10 : ℚ) * r.score_breakdown.semantic_score
            + (4/10 : ℚ) * r.score_breakdown.skill_score
            + (2/10 : ℚ) * r.score_breakdown.experience_score
            + (1/10 : ℚ) * r.score_breakdown.tfidf_score))
      ∧ r.similarity_score = r.score_breakdown.final_score * 100
      ∧ 0 ≤ r.similarity_score ∧ r.similarity_score ≤ 100 := by
  obtain ⟨p, rfl⟩ := mem_match_eq_scoreOne h
  obtain ⟨hf0, hf1⟩ := scoreOne_final_bounds st c p
  refine ⟨scoreOne_final_clamped st c p, scoreOne_similarity st c p, ?_, ?_⟩
  · rw [scoreOne_similarity]
    positivity
  · rw [scoreOne_similarity]
    nlinarith

/-- Witness for C1 at a concrete state, candidate and result. -/
theorem C1_fused_score_clamped_percentage_witness :
    0 ≤ ((match_candidate_to_jobs exState exCand 1).head
          (by with_unfolding_all decide)).similarity_score
      ∧ ((match_candidate_to_jobs exState exCand 1).head
          (by with_unfolding_all decide)).similarity_score ≤ 100 :=
  ⟨(C1_fused_score_clamped_percentage exState exCand 1 _ (List.head_mem _)).2.2.1,
   (C1_fused_score_clamped_percentage exState exCand 1 _ (List.head_mem _)).2.2.2⟩

/-! ### C2 -/

theorem bandRank_AUTO : bandRank (pyS r"AUTO") = 2 := by decide

theorem bandRank_REVIEW : bandRank (pyS r"REVIEW") = 1 := by decide

theorem bandRank_HUMAN : bandRank (pyS r"HUMAN") = 0 := by decide

/-- C2: the confidence classifier is total on scores, mapping each score to
exactly one of the three distinct bands (AUTO iff score ≥ 0.80, REVIEW iff
0.60 ≤ score < 0.80, HUMAN iff score < 0.60), and it is monotone for the
confidence order AUTO above REVIEW above HUMAN. -/
theorem C2_confidence_band_total_monotonic (s1 s2 : ℚ) :
    ((8/10 : ℚ) ≤ s1 → get_confidence_band s1 = pyS r"AUTO")
    ∧ ((6/10 : ℚ) ≤ s1 → s1 < (8/10 : ℚ) → get_confidence_band s1 = pyS r"REVIEW")
    ∧ (s1 < (6/10 : ℚ) → get_confidence_band s1 = pyS r"HUMAN")
    ∧ pyS r"AUTO" ≠ pyS r"REVIEW" ∧ pyS r"REVIEW" ≠ pyS r"HUMAN"
    ∧ pyS r"AUTO" ≠ pyS r"HUMAN"
    ∧ (s2 ≤ s1 → bandRank (get_confidence_band s2) ≤ bandRank (get_confidence_band s1)) := by
  refine ⟨?_, ?_, ?_, by decide, by decide, by decide, ?_⟩
  · intro h
    simp [get_confidence_band, h]
  · intro h1 h2
    rw [get_confidence_band, if_neg (by linarith), if_pos h1]
  · intro h
    rw [get_confidence_band, if_neg (by linarith), if_neg (by linarith)]
  · intro h12
    unfold get_confidence_band
    split_ifs with a1 a2 b1 b2 b3 b4 <;>
      simp [bandRank_AUTO, bandRank_REVIEW, bandRank_HUMAN] <;> linarith

/-- Witness for C2 at concrete scores. -/
theorem C2_confidence_band_total_monotonic_witness :
    get_confidence_band (9/10) = pyS r"AUTO"
      ∧ bandRank (get_confidence_band (13/20)) ≤ bandRank (get_confidence_band (9/10)) :=
  ⟨(C2_confidence_band_total_monotonic (9/10) (13/20)).1 (by norm_num),
   (C2_confidence_band_total_monotonic (9/10) (13/20)).2.2.2.2.2.2 (by norm_num)⟩

/-! ### C4 -/

/-- C4: the number of returned matches is always min(max(top_k, 0), catalog
size); in particular top_k ≤ 0 gives the empty list and an empty catalog
gives the empty list rather than an error. -/
theorem C4_result_length (st : MatcherState) (c : Candidate) (top_k : Int) :
    ((match_candidate_to_jobs st c top_k).length : Int)
        = min (max top_k 0) (st.jobs_data.length : Int)
    ∧ (top_k ≤ 0 → match_candidate_to_jobs st c top_k = [])
    ∧ (st.jobs_data = [] → match_candidate_to_jobs st c top_k = []) := by
  have hl := match_length st c top_k
  refine ⟨?_, ?_, ?_⟩
  · rw [hl]
    push_cast
    omega
  · intro h
    rw [← List.length_eq_zero, hl]
    omega
  · intro h
    rw [← List.length_eq_zero, hl, h]
    simp
/-- Witness for C4: negative top_k and the empty catalog both produce []. -/
theorem C4_result_length_witness :
    match_candidate_to_jobs exState exCand (-1) = []
      ∧ match_candidate_to_jobs
          { jobs_data := [], semantic := fun _ _ => 0, tfidf := fun _ _ => 0 } exCand 3 = [] :=
  ⟨(C4_result_length exState exCand (-1)).2.1 (by decide),
   (C4_result_length { jobs_data := [], semantic := fun _ _ => 0, tfidf := fun _ _ => 0 }
      exCand 3).2.2 rfl⟩

/-! ### C7 -/

/-- C7: skill normalization is idempotent: normalizing twice equals
normalizing once, for every string. -/
theorem C7_normalize_idempotent (s : Str) :
    normalize_skill_name (normalize_skill_name s) = normalize_skill_name s :=
  normalize_skill_name_idem s

/-! ### C10 -/

/-- C10: when the requirements list is empty the skill sub-score is exactly 0,
whatever the candidate skills and the nice-to-have list are (the nice-to-have
overlap and category terms are never reached). -/
theorem C10_empty_requirements_skill_zero (candidate_skills job_nice_to_have : List Str) :
    calculate_skill_match_score candidate_skills [] job_nice_to_have = 0 := rfl

/-! ### C3 -/

/-- C3: for positive top_k on a nonempty catalog, the algorithm retrieves a
shortlist of exactly min(2*top_k, number of jobs) jobs by nearest-neighbor
search on the candidate embedding, scores every shortlisted job, sorts by
fused percentage score descending and truncates to top_k; in particular the
returned list is sorted in descending order of similarity_score. -/
theorem C3_pipeline_sorted (st : MatcherState) (c : Candidate) (top_k : Int)
    (h1 : 0 < top_k) (h2 : st.jobs_data ≠ []) :
    (faissSearch (semScores st c) (min (2 * top_k) (st.jobs_data.length : Int)).toNat).length
        = min (2 * top_k).toNat st.jobs_data.length
    ∧ match_candidate_to_jobs st c top_k
        = (((faissSearch (semScores st c)
              (min (2 * top_k) (st.jobs_data.length : Int)).toNat).map
            (scoreOne st c)).mergeSort mrDesc).take top_k.toNat
    ∧ (match_candidate_to_jobs st c top_k).Pairwise
        (fun a b => b.similarity_score ≤ a.similarity_score) := by
  have hM : st.jobs_data.length ≠ 0 := fun hz => h2 (List.length_eq_zero.mp hz)
  refine ⟨?_, ?_, match_sorted st c top_k⟩
  · rw [faissSearch_length, semScores_length]
    omega
  · unfold match_candidate_to_jobs
    rw [if_neg hM, if_neg (by omega : ¬ min (2 * top_k) (st.jobs_data.length : Int) ≤ 0)]

/-- Witness for C3 at the concrete fixture state. -/
theorem C3_pipeline_sorted_witness :
    (faissSearch (semScores exState exCand)
          (min (2 * 1) (exState.jobs_data.length : Int)).toNat).length
        = min ((2 : Int) * 1).toNat exState.jobs_data.length
    ∧ match_candidate_to_jobs exState exCand 1
        = (((faissSearch (semScores exState exCand)
              (min (2 * 1) (exState.jobs_data.length : Int)).toNat).map
            (scoreOne exState exCand)).mergeSort mrDesc).take (1 : Int).toNat
    ∧ (match_candidate_to_jobs exState exCand 1).Pairwise
        (fun a b => b.similarity_score ≤ a.similarity_score) :=
  C3_pipeline_sorted exState exCand 1 (by decide) (by decide)

/-! ### C8 -/

/-- C8: analyze_skill_gaps returns the missing and matching skills as set
differences and intersections of the normalized candidate skills against the
normalized requirements and nice-to-haves, and its readiness_score is
|matched required| / |required|, exactly 0 for a job with no requirements
(no division by zero), and always between 0 and 1. -/
theorem C8_skill_gaps_sets_readiness (candidate_data : Candidate) (job : Job) :
    (analyze_skill_gaps candidate_data job).missing_required_skills
        = normSet job.requirements \ normSet candidate_data.skills
    ∧ (analyze_skill_gaps candidate_data job).missing_nice_to_have
        = normSet job.nice_to_have \ normSet candidate_data.skills
    ∧ (analyze_skill_gaps candidate_data job).matching_skills
        = normSet candidate_data.skills ∩ normSet job.requirements
    ∧ (job.requirements = [] → (analyze_skill_gaps candidate_data job).readiness_score = 0)
    ∧ (job.requirements ≠ [] → (analyze_skill_gaps candidate_data job).readiness_score
        = ((normSet candidate_data.skills ∩ normSet job.requirements).card : ℚ)
            / ((normSet job.requirements).card : ℚ))
    ∧ 0 ≤ (analyze_skill_gaps candidate_data job).readiness_score
    ∧ (analyze_skill_gaps candidate_data job).readiness_score ≤ 1 := by
  have hread : (analyze_skill_gaps candidate_data job).readiness_score
      = if (normSet job.requirements).Nonempty
          then ((normSet candidate_data.skills ∩ normSet job.requirements).card : ℚ)
              / ((normSet job.requirements).card : ℚ)
          else 0 := rfl
  refine ⟨rfl, rfl, rfl, ?_, ?_, ?_, ?_⟩
  · intro h
    rw [hread, if_neg]
    simp [normSet, h]
  · intro h
    rw [hread, if_pos]
    cases hj : job.requirements with
    | nil => exact absurd hj h
    | cons a t =>
      refine ⟨normalize_skill_name a, ?_⟩
      simp [normSet, hj]
  · rw [hread]
    split
    · positivity
    · exact le_refl 0
  · rw [hread]
    split
    · rename_i hne
      rw [div_le_one (by exact_mod_cast Finset.card_pos.mpr hne)]
      exact_mod_cast Finset.card_le_card (Finset.inter_subset_right)
    · norm_num

/-- Witness for C8: a job with no requirements has readiness score 0, and a
job with requirements has the exact ratio. -/
theorem C8_skill_gaps_sets_readiness_witness :
    (analyze_skill_gaps exCand exJobB).readiness_score = 0
    ∧ (analyze_skill_gaps exCand exJobA).readiness_score
        = ((normSet exCand.skills ∩ normSet exJobA.requirements).card : ℚ)
            / ((normSet exJobA.requirements).card : ℚ) :=
  ⟨(C8_skill_gaps_sets_readiness exCand exJobB).2.2.2.1 rfl,
   (C8_skill_gaps_sets_readiness exCand exJobA).2.2.2.2.1 (by decide)⟩

/-! ### C9 -/

/-- C9: a candidate with an empty skills list and empty resume text still gets
a fully populated result list (one scored MatchResult per returned job, list
length min(max(top_k,0), catalog size)), sorted descending, with every
similarity_score between 0 and 100 - nothing raises. -/
theorem C9_empty_candidate_safe (st : MatcherState) (c : Candidate) (top_k : Int)
    (hskills : c.skills = []) (hresume : c.resume_text = []) :
    (match_candidate_to_jobs st c top_k).Pairwise
        (fun a b => b.similarity_score ≤ a.similarity_score)
    ∧ (match_candidate_to_jobs st c top_k).length = min top_k.toNat st.jobs_data.length
    ∧ ∀ r ∈ match_candidate_to_jobs st c top_k,
        0 ≤ r.similarity_score ∧ r.similarity_score ≤ 100 := by
  refine ⟨match_sorted st c top_k, match_length st c top_k, ?_⟩
  intro r hr
  obtain ⟨p, rfl⟩ := mem_match_eq_scoreOne hr
  obtain ⟨hf0, hf1⟩ := scoreOne_final_bounds st c p
  constructor
  · rw [scoreOne_similarity]
    positivity
  · rw [scoreOne_similarity]
    nlinarith

/-- Witness for C9 with the concrete skill-less candidate. -/
theorem C9_empty_candidate_safe_witness :
    (match_candidate_to_jobs exState exEmptyCand 2).Pairwise
        (fun a b => b.similarity_score ≤ a.similarity_score)
    ∧ (match_candidate_to_jobs exState exEmptyCand 2).length
        = min (2 : Int).toNat exState.jobs_data.length
    ∧ (0 ≤ ((match_candidate_to_jobs exState exEmptyCand 2).head
          (by with_unfolding_all decide)).similarity_score
        ∧ ((match_candidate_to_jobs exState exEmptyCand 2).head
          (by with_unfolding_all decide)).similarity_score ≤ 100) :=
  ⟨(C9_empty_candidate_safe exState exEmptyCand 2 rfl rfl).1,
   (C9_empty_candidate_safe exState exEmptyCand 2 rfl rfl).2.1,
   (C9_empty_candidate_safe exState exEmptyCand 2 rfl rfl).2.2 _ (List.head_mem _)⟩

/-! ### C5 (corrected) -/

/-- C5 counterexample: candidate_years = 1 against "10-20 years" parses the
range [10, 20]; 1 is below 80 percent of the lower bound, i.e. further
outside the range, yet the code returns 0.8 - not a value floored at 0.3 as
the claim describes for inputs further outside either bound (the claimed
taper max(0.3, min(1/10, 20/1)) would be 0.3). -/
theorem C5_counterexample :
    extractInts (pyS r"10-20 years") = [10, 20]
    ∧ (1 : ℚ) < (8/10 : ℚ) * 10
    ∧ calculate_experience_match_score 1 (pyS r"10-20 years") = 8/10
    ∧ (8/10 : ℚ) ≠ max (3/10) (min ((1 : ℚ)/10) ((20 : ℚ)/1)) :=
  ⟨by decide, by norm_num, by with_unfolding_all decide, by norm_num⟩

/-- C5 amended: the experience sub-score is piecewise in the integers parsed
from the requirement. No parse (or empty string): exactly 0.8. Single
integer T: 1.0 when candidate years ≥ T, 0.8 between 80 percent of T and T,
and max(0.3, years/T) below 80 percent of T. Parsed range [lo, hi] (first
two integers, lo ≤ hi): 1.0 inside the range; 0.9 outside the range whenever
years ≥ 80 percent of lo - including arbitrarily far above hi; and 0.8 when
years is below 80 percent of lo. The 0.3 floor branch of the range case is
unreachable when lo ≤ hi. -/
theorem calcExp_no_parse (y : Nat) (req : Str) (hex : extractInts req = []) :
    calculate_experience_match_score y req = 8/10 := by
  unfold calculate_experience_match_score
  by_cases hr : req = []
  · rw [if_pos hr]
  · rw [if_neg hr, hex]

theorem calcExp_single (y t : Nat) (req : Str) (hr : req ≠ []) (hex : extractInts req = [t]) :
    calculate_experience_match_score y req
      = if t ≤ y then 1
        else if (t : ℚ) * (8/10) ≤ (y : ℚ) then 8/10
        else max (3/10) ((y : ℚ) / (t : ℚ)) := by
  unfold calculate_experience_match_score
  rw [if_neg hr, hex]

theorem calcExp_range (y lo hi : Nat) (rest : List Nat) (req : Str) (hr : req ≠ [])
    (hex : extractInts req = lo :: hi :: rest) :
    calculate_experience_match_score y req
      = if lo ≤ y ∧ y ≤ hi then 1
        else if (lo : ℚ) * (8/10) ≤ (y : ℚ) then 9/10
        else if (y : ℚ) ≤ (hi : ℚ) * (12/10) then 8/10
        else max (3/10) (min ((y : ℚ) / (lo : ℚ)) ((hi : ℚ) / (y : ℚ))) := by
  unfold calculate_experience_match_score
  rw [if_neg hr, hex]

theorem C5_experience_piecewise_amended (candidate_years : Nat) (req : Str) :
    (extractInts req = [] → calculate_experience_match_score candidate_years req = 8/10)
    ∧ (∀ t, extractInts req = [t] →
        ((t ≤ candidate_years → calculate_experience_match_score candidate_years req = 1)
        ∧ (candidate_years < t → (t : ℚ) * (8/10) ≤ (candidate_years : ℚ) →
            calculate_experience_match_score candidate_years req = 8/10)
        ∧ ((candidate_years : ℚ) < (t : ℚ) * (8/10) →
            calculate_experience_match_score candidate_years req
              = max (3/10) ((candidate_years : ℚ) / (t : ℚ)))))
    ∧ (∀ lo hi rest, extractInts req = lo :: hi :: rest → lo ≤ hi →
        ((lo ≤ candidate_years ∧ candidate_years ≤ hi →
            calculate_experience_match_score candidate_years req = 1)
        ∧ (¬ (lo ≤ candidate_years ∧ candidate_years ≤ hi) →
            (lo : ℚ) * (8/10) ≤ (candidate_years : ℚ) →
            calculate_experience_match_score candidate_years req = 9/10)
        ∧ ((candidate_years : ℚ) < (lo : ℚ) * (8/10) →
            calculate_experience_match_score candidate_years req = 8/10))) := by
  refine ⟨fun hex => calcExp_no_parse candidate_years req hex, ?_, ?_⟩
  · intro t hex
    have hr : req ≠ [] := by
      intro h
      rw [h] at hex
      exact List.noConfusion hex
    rw [calcExp_single candidate_years t req hr hex]
    refine ⟨?_, ?_, ?_⟩
    · intro h
      rw [if_pos h]
    · intro h1 h2
      rw [if_neg (by omega : ¬ t ≤ candidate_years), if_pos h2]
    · intro h
      have ht0 : (0 : ℚ) ≤ (t : ℚ) := Nat.cast_nonneg t
      have hy0 : (0 : ℚ) ≤ (candidate_years : ℚ) := Nat.cast_nonneg candidate_years
      have hlt : ¬ t ≤ candidate_years := by
        intro hle
        have : (t : ℚ) ≤ (candidate_years : ℚ) := Nat.cast_le.mpr hle
        linarith
      rw [if_neg hlt, if_neg (not_le.mpr h)]
  · intro lo hi rest hex hlohi
    have hr : req ≠ [] := by
      intro h
      rw [h] at hex
      exact List.noConfusion hex
    rw [calcExp_range candidate_years lo hi rest req hr hex]
    refine ⟨?_, ?_, ?_⟩
    · intro h
      rw [if_pos h]
    · intro h1 h2
      rw [if_neg h1, if_pos h2]
    · intro h
      have hlo0 : (0 : ℚ) ≤ (lo : ℚ) := Nat.cast_nonneg lo
      have hhi0 : (0 : ℚ) ≤ (hi : ℚ) := Nat.cast_nonneg hi
      have hy0 : (0 : ℚ) ≤ (candidate_years : ℚ) := Nat.cast_nonneg candidate_years
      have hcast : (lo : ℚ) ≤ (hi : ℚ) := Nat.cast_le.mpr hlohi
      have hin : ¬ (lo ≤ candidate_years ∧ candidate_years ≤ hi) := by
        rintro ⟨ha, _⟩
        have : (lo : ℚ) ≤ (candidate_years : ℚ) := Nat.cast_le.mpr ha
        linarith
      have h12 : (candidate_years : ℚ) ≤ (hi : ℚ) * (12/10) := by linarith
      rw [if_neg hin, if_neg (not_le.mpr h), if_pos h12]

/-- Witness for the amended C5: 1 year against the range "10-20 years" is far
below the range and scores 0.8. -/
theorem C5_experience_piecewise_amended_witness :
    calculate_experience_match_score 1 (pyS r"10-20 years") = 8/10 :=
  ((C5_experience_piecewise_amended 1 (pyS r"10-20 years")).2.2 10 20 []
      (by decide) (by decide)).2.2 (by with_unfolding_all decide)

/-! ### C6 (corrected) -/

/-- C6 counterexample: the candidate ["python"] and a job requiring exactly
["python"] share an exact skill token, yet the category loop still awards
partial credit for the programming category: the code returns
0.7*1 + 0.2*0 + 0.1*0.3 = 0.73, not the 0.7 the claim predicts when category
credit is awarded only in the absence of any shared exact token. -/
theorem C6_counterexample :
    calculate_skill_match_score [pyS r"python"] [pyS r"python"] [] = 73/100
    ∧ (73/100 : ℚ) ≠ (7/10 : ℚ) * 1 + (2/10 : ℚ) * 0 + (1/10 : ℚ) * 0 :=
  ⟨by with_unfolding_all decide, by norm_num⟩

theorem categoryScoreAux_eq (cand jreq : Finset Str) (l : List (Str × List Str)) (a : ℚ) :
    l.foldl
      (fun acc p =>
        let cin := cand ∩ p.2.toFinset
        let jin := jreq ∩ p.2.toFinset
        if cin.Nonempty ∧ jin.Nonempty then
          acc + (3/10 : ℚ) * (min cin.card jin.card : ℚ) / (jin.card : ℚ)
        else acc)
      a
      = a + (l.map (fun p =>
          if (cand ∩ p.2.toFinset).Nonempty ∧ (jreq ∩ p.2.toFinset).Nonempty then
            (3/10 : ℚ) * (min (cand ∩ p.2.toFinset).card (jreq ∩ p.2.toFinset).card : ℚ)
              / ((jreq ∩ p.2.toFinset).card : ℚ)
          else 0)).sum := by
  induction l generalizing a with
  | nil => simp
  | cons p t ih =>
    simp only [List.foldl_cons, List.map_cons, List.sum_cons, ih]
    split_ifs with h
    · ring
    · ring

theorem categoryScore_eq_sum (cand jreq : Finset Str) :
    categoryScore cand jreq
      = (skill_categories.map (fun p =>
          if (cand ∩ p.2.toFinset).Nonempty ∧ (jreq ∩ p.2.toFinset).Nonempty then
            (3/10 : ℚ) * (min (cand ∩ p.2.toFinset).card (jreq ∩ p.2.toFinset).card : ℚ)
              / ((jreq ∩ p.2.toFinset).card : ℚ)
          else 0)).sum := by
  unfold categoryScore
  rw [categoryScoreAux_eq]
  ring

/-- C6 amended: the skill sub-score is 0 when the requirements list is empty,
and otherwise equals 0.7 times the required-overlap ratio plus 0.2 times the
nice-to-have overlap ratio plus 0.1 times the category credit, capped at 1 -
where the category credit is awarded for every taxonomy category in which the
candidate and the requirements both have at least one skill (regardless of
whether any exact skill token is shared), summing
0.3 * min(|cand ∩ cat|, |req ∩ cat|) / |req ∩ cat| over those categories. -/
theorem C6_skill_score_amended
    (candidate_skills job_requirements job_nice_to_have : List Str) :
    calculate_skill_match_score candidate_skills job_requirements job_nice_to_have
      = if job_requirements = [] then 0
        else
          min ((7/10 : ℚ)
              * (((normSet candidate_skills ∩ normSet job_requirements).card : ℚ)
                  / ((normSet job_requirements).card : ℚ))
            + (2/10 : ℚ)
              * (((normSet candidate_skills ∩ normSet job_nice_to_have).card : ℚ)
                  / ((normSet job_nice_to_have).card : ℚ))
            + (1/10 : ℚ)
              * ((skill_categories.map (fun p =>
                  if (normSet candidate_skills ∩ p.2.toFinset).Nonempty
                      ∧ (normSet job_requirements ∩ p.2.toFinset).Nonempty then
                    (3/10 : ℚ) * (min (normSet candidate_skills ∩ p.2.toFinset).card
                        (normSet job_requirements ∩ p.2.toFinset).card : ℚ)
                      / ((normSet job_requirements ∩ p.2.toFinset).card : ℚ)
                  else 0)).sum)) 1 := by
  by_cases hreq : job_requirements = []
  · rw [if_pos hreq, hreq]
    rfl
  · rw [if_neg hreq]
    unfold calculate_skill_match_score
    rw [if_neg hreq]
    simp only
    have hne : (normSet job_requirements).Nonempty := by
      cases hj : job_requirements with
      | nil => exact absurd hj hreq
      | cons x xs =>
        refine ⟨normalize_skill_name x, ?_⟩
        simp [normSet, hj]
    rw [if_pos hne, categoryScore_eq_sum]
    by_cases hn : (normSet job_nice_to_have).Nonempty
    · rw [if_pos hn]
      congr 1
      ring
    · rw [if_neg hn]
      rw [Finset.not_nonempty_iff_eq_empty] at hn
      rw [hn]
      simp only [Finset.inter_empty, Finset.card_empty, Nat.cast_zero, CharP.cast_eq_zero]
      congr 1
      ring
